import Mathlib

/-!
Verification of qc2md (src/qc2md.py), a utility converting mpvQC review
reports to markdown checklists, optionally annotated with the subtitle
dialogue lines active at each annotation's timestamp.

Shallow embedding conventions:
* Python strings are Lean `String`s; where the source uses `str.split`,
  `str.strip`, `str.startswith` or `int(...)`, we model them with structural
  functions over `List Char` so that all definitions evaluate in the kernel.
* Python `timedelta` values carry microsecond resolution; we model times as
  natural numbers counting microseconds.
* `ass.Dialogue` events are records with a start time, an end time, the
  plain text, and the string produced by their `dump()` method.
* Fallible steps (file loading, metadata lookup) return `Except`/`Option`.
* The interactive picker (`pick_references`) is a modal UI; we model it as
  an abstract chooser `QCEntry → List Dialogue → Option Dialogue`, `none`
  meaning the user cancelled.

The file is organised as definitions first (the embedding, plus the
concrete inputs used by witnesses), then the theorems.
-/

namespace Qc2md

/-- One subtitle event (`ass.Dialogue`): start and end times in microseconds
(the resolution of Python timedeltas) and its text.  `stop` is the event's
`end` attribute (`end` is a Lean keyword); `dump` is the string returned by
the event's `dump()` method (the full styled ASS event line). -/
structure Dialogue where
  start : Nat
  stop : Nat
  text : String
  dump : String
  deriving DecidableEq

/-- An entry in a mpvQC report (`QCEntry` in the source). -/
structure QCEntry where
  time : String
  category : String
  text : String
  deriving DecidableEq

/-- When using --chrono, keep these categories separate (src/qc2md.py:24). -/
def STANDALONE_CATEGORIES : List String := ["Typeset", "Timing", "Encode"]

/-- When using --refs, do not add a reference line for these categories
(src/qc2md.py:27). -/
def NON_DIALOGUE_CATEGORIES : List String := ["Typeset", "Encode"]

/-! ### String plumbing

Structural models of the Python string operations the source uses, over
`List Char` so everything reduces in the kernel. -/

/-- Model of Python `str.split(sep)` for a one-character separator: no run
merging, empty fields kept (e.g. splitting `""` yields one empty field). -/
def splitChar (sep : Char) : List Char → List (List Char)
  | [] => [[]]
  | c :: rest =>
    if c = sep then [] :: splitChar sep rest
    else
      match splitChar sep rest with
      | g :: gs => (c :: g) :: gs
      | [] => [[c]]

/-- Accumulator for `parseNat`. -/
def parseNatAux : List Char → Nat → Option Nat
  | [], acc => some acc
  | c :: cs, acc =>
    if c.isDigit then parseNatAux cs (10 * acc + (c.toNat - 48)) else none

/-- Model of Python `int(s)` on the all-digit fields of a `HH:MM:SS`
timestamp: the numeric value of a nonempty digit string, `none` (a raised
`ValueError` in the source) otherwise. -/
def parseNat (cs : List Char) : Option Nat :=
  if cs.isEmpty then none else parseNatAux cs 0

/-- Model of Python `s.startswith(p)`. -/
def listStartsWith : List Char → List Char → Bool
  | _, [] => true
  | [], _ :: _ => false
  | c :: cs, p :: ps => c = p && listStartsWith cs ps

/-- Drop leading whitespace (one side of Python `str.strip()`). -/
def dropLeadingWS : List Char → List Char
  | [] => []
  | c :: cs => if c.isWhitespace then dropLeadingWS cs else c :: cs

/-- Model of Python `str.strip()`: remove whitespace from both ends. -/
def stripChars (cs : List Char) : List Char :=
  (dropLeadingWS (dropLeadingWS cs).reverse).reverse

/-! ### Dialogue Index -/

/-- Microseconds in one second. -/
def usec : Nat := 1000000

/-- The `h, m, s = [int(x) for x in timestamp.split(":")]` step of
`get_dialogue_lines_at_time`: `none` models the `ValueError` the source
raises on anything that is not three integer fields. -/
def parseTimestamp (t : String) : Option (Nat × Nat × Nat) :=
  match (splitChar ':' t.data).map parseNat with
  | [some h, some m, some s] => some (h, m, s)
  | _ => none

/-- Shallow embedding of `get_dialogue_lines_at_time` (src/qc2md.py:174-189).
The source sets `start = timedelta(hours=h, minutes=m, seconds=s)` and
`end = timedelta(seconds=start.seconds + 1)`; `timedelta.seconds` is the
sub-day seconds component, i.e. the total offset in seconds modulo 86400.
Times are compared in microseconds.  The claims only concern well-formed
`HH:MM:SS` timestamps; the `none` branch stands for the exception the
source would raise. -/
def get_dialogue_lines_at_time (doc : List Dialogue) (timestamp : String) :
    List Dialogue :=
  match parseTimestamp timestamp with
  | some (h, m, s) =>
    let start := (3600 * h + 60 * m + s) * usec
    let stop := ((3600 * h + 60 * m + s) % 86400 + 1) * usec
    doc.filter fun line => decide (line.start < stop) && decide (start < line.stop)
  | none => []

/-- The spec's overlap rule, stated from the spec's words for comparison
with `get_dialogue_lines_at_time`: an interval `[s,e)` matches timestamp
`t = h:m:s` iff `s < t + 1s` and `e > t`. -/
def specMatchRule (h m s : Nat) (line : Dialogue) : Prop :=
  line.start < (3600 * h + 60 * m + s + 1) * usec ∧
  (3600 * h + 60 * m + s) * usec < line.stop

/-! ### Categorizer -/

/-- Group assignment made inside the loop of `categorize_entries`
(src/qc2md.py:140-145): when `group_script_entries` is set, standalone
categories keep their key and everything else goes to `"Script"`; otherwise
the key is the category verbatim. -/
def groupKey (group_script_entries : Bool) (category : String) : String :=
  if group_script_entries then
    if category ∈ STANDALONE_CATEGORIES then category else "Script"
  else category

/-- The category map: Python `Dict[str, list[QCEntry]]`, modelled as an
association list in key insertion order. -/
abbrev Groups := List (String × List QCEntry)

/-- One loop body of `categorize_entries`: `data[group] = []` on a fresh key
(appended at the end, as dict insertion does) and `data[group].append(entry)`. -/
def insertEntry : Groups → String → QCEntry → Groups
  | [], key, e => [(key, [e])]
  | (k, v) :: rest, key, e =>
    if k = key then (k, v ++ [e]) :: rest
    else (k, v) :: insertEntry rest key e

/-- Shallow embedding of `categorize_entries` (src/qc2md.py:125-151). -/
def categorize_entries (entries : List QCEntry) (group_script_entries : Bool) :
    Groups :=
  entries.foldl
    (fun data e => insertEntry data (groupKey group_script_entries e.category) e) []

/-- Dict read-back: the bucket stored under key `k`, `[]` if absent. -/
def lookupGroup (data : Groups) (k : String) : List QCEntry :=
  match data.find? (fun p => p.1 == k) with
  | some p => p.2
  | none => []

/-! ### Markdown Renderer -/

/-- The `--ref-format` choices (src/qc2md.py:67-71). -/
inductive RefFormat
  | full
  | text
  deriving DecidableEq

/-- One reference line:
`f"> {ref.dump() if ref_format == "full" else ref.text}\n"`. -/
def refLine (ref_format : RefFormat) (ref : Dialogue) : String :=
  "> " ++ (match ref_format with | .full => ref.dump | .text => ref.text) ++ "\n"

/-- The checklist line written for an entry (src/qc2md.py:257-263): the
original category is included inline exactly when the group key differs
from it (the collapsed-mode case). -/
def checklistLine (group : String) (entry : QCEntry) : String :=
  if group ≠ entry.category then
    "- [ ] [`" ++ entry.time ++ "` - **" ++ entry.category ++ "]: "
      ++ entry.text ++ "\n"
  else
    "- [ ] [`" ++ entry.time ++ "`]: " ++ entry.text ++ "\n"

/-- The renderer inputs of `write_markdown` other than the entry map, the
header metadata and the mutable `pick_refs` flag.  `picker` abstracts
`pick_references` (the modal UI): `none` models user cancellation. -/
structure RenderConfig where
  dialogue_events : Option (List Dialogue)
  include_references : Bool
  ref_format : RefFormat
  picker : QCEntry → List Dialogue → Option Dialogue

/-- The reference block written above one entry's checklist line
(src/qc2md.py:229-255), together with the value of the `pick_refs` flag
after this iteration.  Note `if dialogue_events:` is a Python truthiness
test: both `None` and the empty list take the `else` branch and produce
the placeholder line. -/
def entryRefs (cfg : RenderConfig) (group : String) (pick_refs : Bool)
    (entry : QCEntry) : String × Bool :=
  if cfg.include_references && !decide (group ∈ NON_DIALOGUE_CATEGORIES) then
    match cfg.dialogue_events with
    | some (d :: ds) =>
      let matchSet := get_dialogue_lines_at_time (d :: ds) entry.time
      if !pick_refs || matchSet.length == 1 then
        (String.join (matchSet.map (refLine cfg.ref_format)), pick_refs)
      else if matchSet.length > 1 then
        match cfg.picker entry matchSet with
        | some result => (refLine cfg.ref_format result, pick_refs)
        | none => (String.join (matchSet.map (refLine cfg.ref_format)), false)
      else ("", pick_refs)
    | _ => ("> \n", pick_refs)
  else ("", pick_refs)

/-- One full iteration of the entry loop: reference block, then exactly one
checklist line. -/
def entryOutput (cfg : RenderConfig) (group : String) (pick_refs : Bool)
    (entry : QCEntry) : String × Bool :=
  ((entryRefs cfg group pick_refs entry).1 ++ checklistLine group entry,
    (entryRefs cfg group pick_refs entry).2)

/-- The entry loop over one group's notes, threading `pick_refs`. -/
def notesOutput (cfg : RenderConfig) (group : String) :
    List QCEntry → Bool → String × Bool
  | [], pick_refs => ("", pick_refs)
  | e :: es, pick_refs =>
    let r := entryOutput cfg group pick_refs e
    let rest := notesOutput cfg group es r.2
    (r.1 ++ rest.1, rest.2)

/-- The group loop of `write_markdown`: section header, the group's
entries, one blank line after the section; `pick_refs` threads across
groups (it is a local of `write_markdown` in the source). -/
def groupsOutput (cfg : RenderConfig) : Groups → Bool → String × Bool
  | [], pick_refs => ("", pick_refs)
  | (group, notes) :: rest, pick_refs =>
    let r := notesOutput cfg group notes pick_refs
    let r' := groupsOutput cfg rest r.2
    ("## " ++ group ++ "\n" ++ r.1 ++ "\n" ++ r'.1, r'.2)

/-- Python string `<`: lexicographic comparison by code point.  `a ≤ b` as
used by `sorted`. -/
def charListLe : List Char → List Char → Bool
  | [], _ => true
  | _ :: _, [] => false
  | a :: as, b :: bs => if a = b then charListLe as bs else decide (a < b)

/-- The key order `sorted(entries.items(), key=lambda item: item[0])` sorts
by. -/
def keyLe (p q : String × List QCEntry) : Prop :=
  charListLe p.1.data q.1.data = true

instance : DecidableRel keyLe := fun p q => by unfold keyLe; infer_instance

instance : IsTotal (String × List QCEntry) keyLe where
  total p q := by
    suffices h : ∀ a b : List Char,
        charListLe a b = true ∨ charListLe b a = true from h p.1.data q.1.data
    intro a
    induction a with
    | nil => intro b; exact Or.inl rfl
    | cons x xs ih =>
      intro b
      cases b with
      | nil => exact Or.inr rfl
      | cons y ys =>
        by_cases h : x = y
        · subst h
          rcases ih ys with h' | h' <;> simp [charListLe, h']
        · have h' : ¬y = x := fun hh => h hh.symm
          rcases lt_or_gt_of_ne (show x ≠ y from h) with hlt | hlt
          · exact Or.inl (by simp [charListLe, h, hlt])
          · exact Or.inr (by simp [charListLe, h', hlt])

instance : IsTrans (String × List QCEntry) keyLe where
  trans p q r hpq hqr := by
    suffices h : ∀ a b c : List Char, charListLe a b = true →
        charListLe b c = true → charListLe a c = true from
      h p.1.data q.1.data r.1.data hpq hqr
    intro a
    induction a with
    | nil => intro b c _ _; rfl
    | cons x xs ih =>
      intro b c hab hbc
      cases b with
      | nil => simp [charListLe] at hab
      | cons y ys =>
        cases c with
        | nil => simp [charListLe] at hbc
        | cons z zs =>
          by_cases hxy : x = y
          · subst hxy
            by_cases hyz : x = z
            · subst hyz
              simp only [charListLe, if_pos rfl] at hab hbc ⊢
              exact ih ys zs hab hbc
            · simp only [charListLe, if_pos rfl, if_neg hyz] at hbc ⊢
              exact hbc
          · by_cases hyz : y = z
            · subst hyz
              simp only [charListLe, if_neg hxy] at hab ⊢
              exact hab
            · simp only [charListLe, if_neg hxy] at hab
              simp only [charListLe, if_neg hyz] at hbc
              have hxz : x < z :=
                lt_trans (by simpa using hab) (by simpa using hbc)
              have hne : ¬x = z := ne_of_lt hxz
              simp [charListLe, hne, hxz]

/-- Model of `sorted(entries.items(), key=lambda item: item[0])`
(src/qc2md.py:224): a stable sort of the dict items by key, under Python's
code-point string order. -/
def orderedMap (entries : Groups) : Groups := List.insertionSort keyLe entries

/-- Python truthiness of an optional string: `None` and `""` are falsy. -/
def strTruthy : Option String → Bool
  | none => false
  | some s => !s.isEmpty

/-- The optional header of `write_markdown` (src/qc2md.py:216-222). -/
def mkHeader (artifact_filename githash : Option String) : String :=
  (if strTruthy artifact_filename then
    "Using artifact `" ++ artifact_filename.getD "" ++ "`\n" else "")
  ++ (if strTruthy githash then
    "Repo at commit `" ++ githash.getD "" ++ "`\n" else "")
  ++ (if strTruthy artifact_filename || strTruthy githash then "\n" else "")

/-- Shallow embedding of `write_markdown` (src/qc2md.py:192-264), producing
the document text that the source writes to the output file. -/
def write_markdown (entries : Groups) (artifact_filename githash : Option String)
    (cfg : RenderConfig) (pick_refs : Bool) : String :=
  mkHeader artifact_filename githash
    ++ (groupsOutput cfg (orderedMap entries) pick_refs).1

/-! ### Report loading and the main pipeline -/

/-- The exceptions that abort a run of `main`. -/
inductive RunError
  | invalidGitRepository
  | reportUnreadable
  | missingPathLine
  | missingDataMarker
  deriving DecidableEq

/-- Shallow embedding of `load_report` (src/qc2md.py:82-99).  The argument
is the report file's lines (with trailing newlines, as `readlines` yields
them), `none` when the file is missing or unreadable (`open` raises).  The
source first evaluates `next(... for line in lines if line.startswith("path"))`
(raising `StopIteration` when no `path` line exists), then
`lines.index("[DATA]\n")` (raising `ValueError` when the marker is absent). -/
def load_report (file : Option (List String)) :
    Except RunError (String × List String) :=
  match file with
  | none => .error .reportUnreadable
  | some lines =>
    match lines.find? (fun l => listStartsWith l.data "path".data) with
    | none => .error .missingPathLine
    | some pline =>
      let artifact :=
        String.mk (stripChars ((splitChar '/' pline.data).getLastD []))
      match lines.findIdx? (fun l => l == "[DATA]\n") with
      | none => .error .missingDataMarker
      | some i => .ok (artifact, lines.drop (i + 1))

/-- Lazy nonempty group `(.+?)`: consumes at least one non-newline
character and takes the shortest prefix after which `cont` succeeds,
extending on failure (the regex engine's backtracking). -/
def lazyGroup {α : Type} (cont : List Char → Option α) :
    List Char → Option (List Char × α)
  | [] => none
  | c :: rest =>
    if c = '\n' then none
    else
      match cont rest with
      | some a => some ([c], a)
      | none =>
        match lazyGroup cont rest with
        | some (g, a) => some (c :: g, a)
        | none => none

/-- Model of `re.match(LINE_PATTERN, line)` with
`LINE_PATTERN = r"\[(.+?)\] \[(.+?)\] (.+)"` (src/qc2md.py:21): a literal
`[`, a lazy nonempty group, `] [`, a lazy nonempty group, `] `, then a
greedy nonempty group of non-newline characters (`.` never matches a
newline; `re.match` anchors only at the start). -/
def matchLinePattern (line : String) : Option QCEntry :=
  match line.data with
  | '[' :: rest =>
    (lazyGroup (fun r1 =>
      match r1 with
      | ']' :: ' ' :: '[' :: r2 =>
        lazyGroup (fun r3 =>
          match r3 with
          | ']' :: ' ' :: r4 =>
            let g3 := r4.takeWhile (fun c => !(c = '\n'))
            if g3.isEmpty then none else some g3
          | _ => none) r2
      | _ => none) rest).map
      (fun r => ⟨String.mk r.1, String.mk r.2.1, String.mk r.2.2⟩)
  | _ => none

/-- Shallow embedding of `parse_report` (src/qc2md.py:102-122): comment
lines (starting with `#`) and lines not matching the pattern are skipped;
entry order is preserved. -/
def parse_report : List String → List QCEntry
  | [] => []
  | line :: rest =>
    if listStartsWith line.data "#".data then parse_report rest
    else
      match matchLinePattern line with
      | some e => e :: parse_report rest
      | none => parse_report rest

/-- The external inputs of one run: the report file's lines (`none` when
unreadable), the repository's head commit hash (`none` when the report is
not inside a git repository, in which case `git.Repo` raises
`InvalidGitRepositoryError`), and the parsed events of the subtitle file
named by `--dialogue` when that file exists. -/
structure World where
  report : Option (List String)
  repoHash : Option String
  dialogueFile : Option (List Dialogue)

/-- The command-line arguments that affect the produced document. -/
structure Args where
  refs : Bool
  chrono : Bool
  ref_format : RefFormat
  pick_refs : Bool
  picker : QCEntry → List Dialogue → Option Dialogue

/-- Shallow embedding of `main` (src/qc2md.py:267-293), returning the
document text written to the output file, or the error that aborted the
run before any output was written.  The source's evaluation order:
dialogue events are loaded first (only when `--refs` is given and the
dialogue file exists), then `git.Repo(...).head.object.hexsha` (raising
when there is no repository), then `load_report`, and only then is the
output file opened and written. -/
def main (w : World) (args : Args) : Except RunError String :=
  let dialogue_events := if args.refs then w.dialogueFile else none
  match w.repoHash with
  | none => .error .invalidGitRepository
  | some githash =>
    match load_report w.report with
    | .error e => .error e
    | .ok (artifact, lines) =>
      let entries := categorize_entries (parse_report lines) args.chrono
      .ok (write_markdown entries (some artifact) (some githash)
        ⟨dialogue_events, args.refs, args.ref_format, args.picker⟩
        args.pick_refs)

/-! ### Concrete inputs used by witnesses and counterexamples -/

/-- A dialogue interval `[23:59:59.5, 24:00:01)`, on screen at `24:00:00`. -/
def lateLine : Dialogue :=
  { start := 86399 * usec + 500000, stop := 86401 * usec,
    text := "late", dump := "late dump" }

/-- Concrete dialogue events and entry used by the renderer witnesses.
`dlgA` spans `[00:02:17.5, 00:02:19)`, `dlgB` spans `[00:02:18.2,
00:02:20)`; both overlap the window of timestamp `00:02:18`. -/
def dlgA : Dialogue :=
  { start := 137500000, stop := 139000000,
    text := "It comprises three parts.", dump := "Dialogue: comprises" }

def dlgB : Dialogue :=
  { start := 138200000, stop := 140000000,
    text := "Second line.", dump := "Dialogue: second" }

/-- An event far away from `00:02:18`: `[00:08:20, 00:08:21)`. -/
def dlgFar : Dialogue :=
  { start := 500000000, stop := 501000000, text := "far", dump := "far dump" }

def phraseEntry : QCEntry :=
  { time := "00:02:18", category := "Phrasing",
    text := "unsure of \"comprises\"" }

def typesetEntry : QCEntry :=
  { time := "00:01:00", category := "Typeset", text := "fix sign" }

def cfgTwoRefs : RenderConfig :=
  { dialogue_events := some [dlgA, dlgB], include_references := true,
    ref_format := RefFormat.text, picker := fun _ _ => none }

def cfgNoRefs : RenderConfig :=
  { dialogue_events := none, include_references := false,
    ref_format := RefFormat.full, picker := fun _ _ => none }

def cfgNoDlg : RenderConfig :=
  { dialogue_events := none, include_references := true,
    ref_format := RefFormat.full, picker := fun _ _ => none }

def cfgFarRefs : RenderConfig :=
  { dialogue_events := some [dlgFar], include_references := true,
    ref_format := RefFormat.full, picker := fun _ _ => none }

def worldNoPath : World := ⟨some ["x\n"], some "abc", none⟩

/-- A well-formed report that is not inside a git repository. -/
def worldNoRepo : World :=
  ⟨some ["path: /films/ep1.mkv\n", "[DATA]\n",
    "[00:02:18] [Phrasing] unsure\n"], none, none⟩

def argsPlain : Args :=
  ⟨false, false, RefFormat.full, true, fun _ _ => none⟩

/-! ### Dialogue Index claims (C1) -/

/-- C1: the claim's overlap rule fails on the code.  At timestamp
`24:00:00`, the interval `[23:59:59.5, 24:00:01)` satisfies the spec's
rule (`s < t+1s` and `e > t`), yet `get_dialogue_lines_at_time` returns
the empty list: the source computes the window end from
`timedelta.seconds`, which wraps at 24 hours, so the window becomes
`[24:00:00, 00:00:01)`. -/
theorem get_dialogue_lines_at_time_wraps_at_24h :
    specMatchRule 24 0 0 lateLine ∧
    get_dialogue_lines_at_time [lateLine] "24:00:00" = [] := by
  constructor
  · constructor <;> decide
  · decide

/-- Sanity check for the in-range case: membership in the Match Set is
exactly the source's window test, in source order (`filter`). -/
theorem mem_get_dialogue_lines_at_time (doc : List Dialogue) (h m s : Nat)
    (t : String) (ht : parseTimestamp t = some (h, m, s)) (line : Dialogue) :
    line ∈ get_dialogue_lines_at_time doc t ↔
      line ∈ doc ∧
        line.start < ((3600 * h + 60 * m + s) % 86400 + 1) * usec ∧
        (3600 * h + 60 * m + s) * usec < line.stop := by
  simp [get_dialogue_lines_at_time, ht, List.mem_filter, and_assoc]

/-- Witness for `mem_get_dialogue_lines_at_time` at a concrete input. -/
theorem mem_get_dialogue_lines_at_time_witness :
    lateLine ∈ get_dialogue_lines_at_time [lateLine] "23:59:59" ↔
      lateLine ∈ [lateLine] ∧
        lateLine.start < ((3600 * 23 + 60 * 59 + 59) % 86400 + 1) * usec ∧
        (3600 * 23 + 60 * 59 + 59) * usec < lateLine.stop :=
  mem_get_dialogue_lines_at_time [lateLine] 23 59 59 "23:59:59" (by decide) lateLine

/-! ### Categorizer claims (C5) -/

theorem lookupGroup_cons (k' : String) (v : List QCEntry) (rest : Groups)
    (k : String) :
    lookupGroup ((k', v) :: rest) k =
      if k' = k then v else lookupGroup rest k := by
  by_cases h : k' = k
  · subst h; simp [lookupGroup, List.find?_cons]
  · simp [lookupGroup, List.find?_cons, h]

theorem lookupGroup_insertEntry (data : Groups) (key : String) (e : QCEntry)
    (k : String) :
    lookupGroup (insertEntry data key e) k =
      if k = key then lookupGroup data k ++ [e] else lookupGroup data k := by
  induction data with
  | nil =>
    by_cases h : k = key
    · subst h; simp [insertEntry, lookupGroup_cons, lookupGroup]
    · have h' : ¬key = k := fun hh => h hh.symm
      simp [insertEntry, lookupGroup_cons, lookupGroup, h, h']
  | cons p rest ih =>
    obtain ⟨k', v⟩ := p
    by_cases hk : k' = key
    · subst hk
      by_cases h : k' = k
      · subst h; simp [insertEntry, lookupGroup_cons]
      · have h' : ¬k = k' := fun hh => h hh.symm
        simp [insertEntry, lookupGroup_cons, h, h']
    · by_cases h1 : k' = k
      · subst h1
        simp [insertEntry, lookupGroup_cons, hk]
      · simp [insertEntry, lookupGroup_cons, hk, h1, ih]

theorem keys_insertEntry (data : Groups) (key : String) (e : QCEntry) :
    (insertEntry data key e).map Prod.fst =
      if key ∈ data.map Prod.fst then data.map Prod.fst
      else data.map Prod.fst ++ [key] := by
  induction data with
  | nil => simp [insertEntry]
  | cons p rest ih =>
    obtain ⟨k', v⟩ := p
    by_cases hk : k' = key
    · subst hk; simp [insertEntry]
    · have hk' : ¬key = k' := fun hh => hk hh.symm
      by_cases hmem : key ∈ rest.map Prod.fst <;>
        simp [insertEntry, hk, hk', hmem, ih]

theorem nodup_keys_insertEntry (data : Groups) (key : String) (e : QCEntry)
    (h : (data.map Prod.fst).Nodup) :
    ((insertEntry data key e).map Prod.fst).Nodup := by
  rw [keys_insertEntry]
  by_cases hmem : key ∈ data.map Prod.fst
  · simpa [hmem] using h
  · rw [if_neg hmem]
    exact List.Nodup.append h (List.nodup_singleton key) (by simpa using hmem)

theorem lookupGroup_foldl (entries : List QCEntry) (m : Bool) (data : Groups)
    (k : String) :
    lookupGroup
        (entries.foldl
          (fun d e => insertEntry d (groupKey m e.category) e) data) k =
      lookupGroup data k ++
        (entries.filter (fun e => groupKey m e.category == k)) := by
  induction entries generalizing data with
  | nil => simp
  | cons e es ih =>
    rw [List.foldl_cons, ih, lookupGroup_insertEntry]
    by_cases h : k = groupKey m e.category
    · subst h
      simp [List.filter_cons, List.append_assoc]
    · have h' : ¬(groupKey m e.category == k) = true := by
        simp only [beq_iff_eq]
        exact fun hf => h hf.symm
      simp [h, List.filter_cons, h']

theorem nodup_keys_foldl (entries : List QCEntry) (m : Bool) (data : Groups)
    (h : (data.map Prod.fst).Nodup) :
    (((entries.foldl
        (fun d e => insertEntry d (groupKey m e.category) e) data)).map
        Prod.fst).Nodup := by
  induction entries generalizing data with
  | nil => simpa
  | cons e es ih => exact ih _ (nodup_keys_insertEntry _ _ _ h)

/-- C5: `categorize_entries` is a partition.  The bucket under each key `k`
is exactly the subsequence of input entries whose assigned group key is `k`
(so every annotation lands in exactly one bucket, insertion order
preserved — and the result is a function of the input sequence and mode,
hence deterministic); keys are pairwise distinct; in flat mode the key is
the category verbatim; in collapsed mode it is the category itself for
standalone categories and the literal `"Script"` otherwise. -/
theorem categorize_entries_partition (entries : List QCEntry) (m : Bool)
    (k : String) :
    lookupGroup (categorize_entries entries m) k =
        entries.filter (fun e => groupKey m e.category == k) ∧
      ((categorize_entries entries m).map Prod.fst).Nodup ∧
      (∀ c, groupKey false c = c) ∧
      (∀ c, groupKey true c =
        if c ∈ STANDALONE_CATEGORIES then c else "Script") := by
  refine ⟨?_, ?_, fun c => rfl, fun c => rfl⟩
  · simpa [lookupGroup] using lookupGroup_foldl entries m [] k
  · exact nodup_keys_foldl entries m [] (by simp)

/-! ### Reference Resolver claims (C2, C3, C4) -/

theorem entryRefs_snd_false (cfg : RenderConfig) (group : String)
    (entry : QCEntry) : (entryRefs cfg group false entry).2 = false := by
  unfold entryRefs
  by_cases hc : (cfg.include_references
      && !decide (group ∈ NON_DIALOGUE_CATEGORIES)) = true
  · rcases hde : cfg.dialogue_events with _ | (_ | ⟨d, ds⟩) <;>
      simp [hde, hc]
  · simp [hc]

theorem notesOutput_snd_false (cfg : RenderConfig) (group : String)
    (notes : List QCEntry) : (notesOutput cfg group notes false).2 = false := by
  induction notes with
  | nil => rfl
  | cons e es ih =>
    simp only [notesOutput, entryOutput, entryRefs_snd_false]
    exact ih

theorem groupsOutput_snd_false (cfg : RenderConfig) (groups : Groups) :
    (groupsOutput cfg groups false).2 = false := by
  induction groups with
  | nil => rfl
  | cons p rest ih =>
    obtain ⟨group, notes⟩ := p
    simp only [groupsOutput, notesOutput_snd_false]
    exact ih

/-- C2: when the Match Set has exactly one element, or the picker is
disabled, the entry gets one reference line per match, in source order
(`String.join` over the Match Set's map), each rendered per the chosen
format, and the `pick_refs` flag is unchanged. -/
theorem single_match_or_picker_disabled_emits_each (cfg : RenderConfig)
    (group : String) (pick_refs : Bool) (entry : QCEntry)
    (evs : List Dialogue)
    (hincl : cfg.include_references = true)
    (hgrp : group ∉ NON_DIALOGUE_CATEGORIES)
    (hevs : cfg.dialogue_events = some evs) (hne : evs ≠ [])
    (hcase : (get_dialogue_lines_at_time evs entry.time).length = 1 ∨
      pick_refs = false) :
    entryOutput cfg group pick_refs entry =
      (String.join ((get_dialogue_lines_at_time evs entry.time).map
          (refLine cfg.ref_format)) ++ checklistLine group entry,
        pick_refs) := by
  cases evs with
  | nil => exact absurd rfl hne
  | cons d ds =>
    have hcond : (!pick_refs ||
        (get_dialogue_lines_at_time (d :: ds) entry.time).length == 1) = true := by
      rcases hcase with h | h <;> simp [h]
    simp [entryOutput, entryRefs, hincl, hevs, hgrp, hcond]

/-- Witness for C2 at a concrete input: two overlapping intervals, picker
disabled — two reference lines, in source order. -/
theorem single_match_or_picker_disabled_emits_each_witness :
    ("Phrasing" ∉ NON_DIALOGUE_CATEGORIES) ∧
    entryOutput cfgTwoRefs "Phrasing" false phraseEntry =
      (String.join ((get_dialogue_lines_at_time [dlgA, dlgB]
          phraseEntry.time).map (refLine cfgTwoRefs.ref_format))
        ++ checklistLine "Phrasing" phraseEntry, false) ∧
    entryOutput cfgTwoRefs "Phrasing" false phraseEntry =
      ("> It comprises three parts.\n> Second line.\n- [ ] [`00:02:18`]: unsure of \"comprises\"\n",
        false) :=
  ⟨by decide,
   single_match_or_picker_disabled_emits_each cfgTwoRefs "Phrasing" false
     phraseEntry [dlgA, dlgB] rfl (by decide) rfl (by decide) (Or.inr rfl),
   by decide⟩

/-- C3: when the picker is cancelled on an entry with more than one match,
the entry's output is exactly the picker-disabled output and the flag is
downgraded to false; moreover the flag is never upgraded: once false it
stays false for an entry and across the remaining groups of the run. -/
theorem cancel_emits_all_and_downgrades :
    (∀ (cfg : RenderConfig) (group : String) (entry : QCEntry)
        (evs : List Dialogue),
      cfg.include_references = true →
      group ∉ NON_DIALOGUE_CATEGORIES →
      cfg.dialogue_events = some evs → evs ≠ [] →
      1 < (get_dialogue_lines_at_time evs entry.time).length →
      cfg.picker entry (get_dialogue_lines_at_time evs entry.time) = none →
      entryOutput cfg group true entry =
        ((entryOutput cfg group false entry).1, false)) ∧
    (∀ (cfg : RenderConfig) (group : String) (entry : QCEntry),
      (entryOutput cfg group false entry).2 = false) ∧
    (∀ (cfg : RenderConfig) (groups : Groups),
      (groupsOutput cfg groups false).2 = false) := by
  refine ⟨?_, fun cfg group entry => entryRefs_snd_false cfg group entry,
    fun cfg groups => groupsOutput_snd_false cfg groups⟩
  intro cfg group entry evs hincl hgrp hevs hne hlen hpick
  cases evs with
  | nil => exact absurd rfl hne
  | cons d ds =>
    have h1 : ((get_dialogue_lines_at_time (d :: ds) entry.time).length == 1)
        = false := by
      rw [beq_eq_false_iff_ne]
      omega
    simp [entryOutput, entryRefs, hincl, hevs, hgrp, h1, hlen, hpick]

/-- Witness for C3 at a concrete input: two matches, picker cancels. -/
theorem cancel_emits_all_and_downgrades_witness :
    cfgTwoRefs.picker phraseEntry
        (get_dialogue_lines_at_time [dlgA, dlgB] phraseEntry.time) = none ∧
    1 < (get_dialogue_lines_at_time [dlgA, dlgB] phraseEntry.time).length ∧
    entryOutput cfgTwoRefs "Phrasing" true phraseEntry =
      ((entryOutput cfgTwoRefs "Phrasing" false phraseEntry).1, false) :=
  ⟨rfl, by decide,
   cancel_emits_all_and_downgrades.1 cfgTwoRefs "Phrasing" phraseEntry
     [dlgA, dlgB] rfl (by decide) rfl (by decide) (by decide) rfl⟩

/-- C4: an annotation whose category is a non-dialogue category always sits
in a group keyed by that very category (in both grouping modes, since the
non-dialogue categories are standalone), and for such a group the entry's
output is the bare checklist line — no dialogue reference and no
placeholder, whatever the configuration, match count or flag state. -/
theorem non_dialogue_category_no_reference :
    (∀ (m : Bool) (c : String), c ∈ NON_DIALOGUE_CATEGORIES →
      groupKey m c = c) ∧
    (∀ (cfg : RenderConfig) (group : String) (pick_refs : Bool)
        (entry : QCEntry), group ∈ NON_DIALOGUE_CATEGORIES →
      entryOutput cfg group pick_refs entry =
        (checklistLine group entry, pick_refs)) := by
  constructor
  · intro m c hc
    have : c = "Typeset" ∨ c = "Encode" := by
      simpa [NON_DIALOGUE_CATEGORIES] using hc
    rcases this with h | h <;> subst h <;> cases m <;> decide
  · intro cfg group pick_refs entry h
    simp [entryOutput, entryRefs, h]

/-- Witness for C4 at a concrete input. -/
theorem non_dialogue_category_no_reference_witness :
    ("Typeset" ∈ NON_DIALOGUE_CATEGORIES) ∧
    groupKey true "Typeset" = "Typeset" ∧
    entryOutput cfgTwoRefs "Typeset" true typesetEntry =
      (checklistLine "Typeset" typesetEntry, true) :=
  ⟨by decide,
   non_dialogue_category_no_reference.1 true "Typeset" (by decide),
   non_dialogue_category_no_reference.2 cfgTwoRefs "Typeset" true
     typesetEntry (by decide)⟩

/-! ### Renderer layout claims (C6, C7) -/

/-- C6: sections are rendered in sorted (code-point lexicographic) key
order; every entry's output is some reference block followed by exactly
one checklist line; the checklist line carries the original category
inline precisely when the group key differs from it; and the single-entry
scenario with no dialogue data renders to exactly a `## Phrasing` section
with the bare checklist line and no reference line. -/
theorem renderer_layout :
    (∀ entries : Groups, List.Sorted keyLe (orderedMap entries)) ∧
    (∀ (cfg : RenderConfig) (group : String) (pick_refs : Bool)
        (entry : QCEntry), ∃ refs : String,
      (entryOutput cfg group pick_refs entry).1 =
        refs ++ checklistLine group entry) ∧
    (∀ (group : String) (e : QCEntry),
      (group ≠ e.category →
        checklistLine group e =
          "- [ ] [`" ++ e.time ++ "` - **" ++ e.category ++ "]: "
            ++ e.text ++ "\n") ∧
      (group = e.category →
        checklistLine group e =
          "- [ ] [`" ++ e.time ++ "`]: " ++ e.text ++ "\n")) ∧
    write_markdown [("Phrasing", [phraseEntry])] none none cfgNoRefs true =
      "## Phrasing\n- [ ] [`00:02:18`]: unsure of \"comprises\"\n\n" := by
  refine ⟨fun entries => List.sorted_insertionSort keyLe entries,
    fun cfg group pick_refs entry =>
      ⟨(entryRefs cfg group pick_refs entry).1, rfl⟩,
    fun group e => ⟨fun h => by simp [checklistLine, h],
      fun h => by simp [checklistLine, h]⟩,
    by decide⟩

/-- Witness for C6 at concrete inputs: a collapsed-mode entry whose group
differs from its category gets the category inline. -/
theorem renderer_layout_witness :
    ("Script" ≠ phraseEntry.category) ∧
    checklistLine "Script" phraseEntry =
      "- [ ] [`" ++ phraseEntry.time ++ "` - **" ++ phraseEntry.category
        ++ "]: " ++ phraseEntry.text ++ "\n" :=
  ⟨by decide, (renderer_layout.2.2.1 "Script" phraseEntry).1 (by decide)⟩

/-- C7: with references requested and a dialogue-eligible group, missing
dialogue data yields the placeholder reference line, while available
(nonempty) data whose Match Set is empty yields no reference line at
all. -/
theorem placeholder_vs_zero_matches (cfg : RenderConfig) (group : String)
    (pick_refs : Bool) (entry : QCEntry)
    (hincl : cfg.include_references = true)
    (hgrp : group ∉ NON_DIALOGUE_CATEGORIES) :
    (cfg.dialogue_events = none →
      entryOutput cfg group pick_refs entry =
        ("> \n" ++ checklistLine group entry, pick_refs)) ∧
    (∀ evs, cfg.dialogue_events = some evs → evs ≠ [] →
      get_dialogue_lines_at_time evs entry.time = [] →
      entryOutput cfg group pick_refs entry =
        (checklistLine group entry, pick_refs)) := by
  constructor
  · intro hde
    simp [entryOutput, entryRefs, hincl, hgrp, hde]
  · intro evs hde hne hempty
    cases evs with
    | nil => exact absurd rfl hne
    | cons d ds =>
      cases pick_refs <;>
        simp [entryOutput, entryRefs, hincl, hgrp, hde, hempty,
          show String.join [] = "" from rfl]

/-- Witness for C7 at concrete inputs. -/
theorem placeholder_vs_zero_matches_witness :
    entryOutput cfgNoDlg "Phrasing" true phraseEntry =
      ("> \n" ++ checklistLine "Phrasing" phraseEntry, true) ∧
    entryOutput cfgFarRefs "Phrasing" true phraseEntry =
      (checklistLine "Phrasing" phraseEntry, true) :=
  ⟨(placeholder_vs_zero_matches cfgNoDlg "Phrasing" true phraseEntry rfl
      (by decide)).1 rfl,
   (placeholder_vs_zero_matches cfgFarRefs "Phrasing" true phraseEntry rfl
      (by decide)).2 [dlgFar] rfl (by decide) (by decide)⟩

/-! ### Empty dialogue list (C10) -/

theorem entryRefs_some_nil (incl : Bool) (fmt : RefFormat)
    (picker : QCEntry → List Dialogue → Option Dialogue) (group : String)
    (pick_refs : Bool) (entry : QCEntry) :
    entryRefs ⟨some [], incl, fmt, picker⟩ group pick_refs entry =
      entryRefs ⟨none, incl, fmt, picker⟩ group pick_refs entry := by
  by_cases hc : (incl && !decide (group ∈ NON_DIALOGUE_CATEGORIES)) = true <;>
    simp [entryRefs, hc]

theorem entryOutput_some_nil (incl : Bool) (fmt : RefFormat)
    (picker : QCEntry → List Dialogue → Option Dialogue) (group : String)
    (pick_refs : Bool) (entry : QCEntry) :
    entryOutput ⟨some [], incl, fmt, picker⟩ group pick_refs entry =
      entryOutput ⟨none, incl, fmt, picker⟩ group pick_refs entry := by
  simp [entryOutput, entryRefs_some_nil]

theorem notesOutput_some_nil (incl : Bool) (fmt : RefFormat)
    (picker : QCEntry → List Dialogue → Option Dialogue) (group : String)
    (notes : List QCEntry) (pick_refs : Bool) :
    notesOutput ⟨some [], incl, fmt, picker⟩ group notes pick_refs =
      notesOutput ⟨none, incl, fmt, picker⟩ group notes pick_refs := by
  induction notes generalizing pick_refs with
  | nil => rfl
  | cons e es ih =>
    simp only [notesOutput]
    rw [entryOutput_some_nil, ih]

theorem groupsOutput_some_nil (incl : Bool) (fmt : RefFormat)
    (picker : QCEntry → List Dialogue → Option Dialogue) (groups : Groups)
    (pick_refs : Bool) :
    groupsOutput ⟨some [], incl, fmt, picker⟩ groups pick_refs =
      groupsOutput ⟨none, incl, fmt, picker⟩ groups pick_refs := by
  induction groups generalizing pick_refs with
  | nil => rfl
  | cons p rest ih =>
    obtain ⟨group, notes⟩ := p
    simp only [groupsOutput]
    rw [notesOutput_some_nil, ih]

/-- C10: a supplied-but-empty dialogue event list renders exactly as
missing dialogue data — Python's `if dialogue_events:` is falsy for both
`None` and `[]` — and in particular every dialogue-eligible annotation
gets the placeholder reference line rather than a zero-match lookup. -/
theorem empty_dialogue_treated_as_missing :
    (∀ (entries : Groups) (artifact githash : Option String) (incl : Bool)
        (fmt : RefFormat)
        (picker : QCEntry → List Dialogue → Option Dialogue)
        (pick_refs : Bool),
      write_markdown entries artifact githash ⟨some [], incl, fmt, picker⟩
          pick_refs =
        write_markdown entries artifact githash ⟨none, incl, fmt, picker⟩
          pick_refs) ∧
    (∀ (cfg : RenderConfig) (group : String) (pick_refs : Bool)
        (entry : QCEntry),
      cfg.dialogue_events = some [] → cfg.include_references = true →
      group ∉ NON_DIALOGUE_CATEGORIES →
      entryOutput cfg group pick_refs entry =
        ("> \n" ++ checklistLine group entry, pick_refs)) := by
  constructor
  · intro entries artifact githash incl fmt picker pick_refs
    unfold write_markdown
    rw [groupsOutput_some_nil]
  · intro cfg group pick_refs entry hde hincl hgrp
    simp [entryOutput, entryRefs, hde, hincl, hgrp]

/-- Witness for C10 at concrete inputs. -/
theorem empty_dialogue_treated_as_missing_witness :
    write_markdown [("Phrasing", [phraseEntry])] none none
        ⟨some [], true, RefFormat.full, fun _ _ => none⟩ true =
      write_markdown [("Phrasing", [phraseEntry])] none none
        ⟨none, true, RefFormat.full, fun _ _ => none⟩ true ∧
    entryOutput ⟨some [], true, RefFormat.full, fun _ _ => none⟩ "Phrasing"
        true phraseEntry =
      ("> \n" ++ checklistLine "Phrasing" phraseEntry, true) :=
  ⟨empty_dialogue_treated_as_missing.1 [("Phrasing", [phraseEntry])] none none
      true RefFormat.full (fun _ _ => none) true,
   empty_dialogue_treated_as_missing.2 _ "Phrasing" true phraseEntry rfl rfl
      (by decide)⟩

/-! ### Fatal errors and git metadata (C8, C9) -/

/-- C8: a missing or unreadable report, a report with no `path` metadata
line, or a report with no `[DATA]` marker makes `load_report` fail, and
`main` then returns the error — no document is produced (in the source the
output file is opened for writing only after all inputs are resolved). -/
theorem fatal_input_errors_abort (w : World) (args : Args)
    (h : w.report = none ∨
      ∃ lines, w.report = some lines ∧
        (lines.find? (fun l => listStartsWith l.data "path".data) = none ∨
         lines.findIdx? (fun l => l == "[DATA]\n") = none)) :
    (∃ e, load_report w.report = .error e) ∧
    ∀ doc, main w args ≠ .ok doc := by
  have herr : ∃ e, load_report w.report = .error e := by
    rcases h with h | ⟨lines, hl, h⟩
    · exact ⟨.reportUnreadable, by simp [load_report, h]⟩
    · rcases h with hfind | hidx
      · exact ⟨.missingPathLine, by simp [load_report, hl, hfind]⟩
      · rcases hfind : lines.find?
            (fun l => listStartsWith l.data "path".data) with _ | pline
        · exact ⟨.missingPathLine, by simp [load_report, hl, hfind]⟩
        · exact ⟨.missingDataMarker, by simp [load_report, hl, hfind, hidx]⟩
  refine ⟨herr, ?_⟩
  obtain ⟨e, he⟩ := herr
  intro doc
  rcases hrepo : w.repoHash with _ | gh <;> simp [main, hrepo, he]

/-- Witness for C8 at a concrete input: a report without a `path` line. -/
theorem fatal_input_errors_abort_witness :
    load_report worldNoPath.report =
      Except.error RunError.missingPathLine ∧
    main worldNoPath argsPlain ≠ Except.ok "" :=
  ⟨rfl, (fatal_input_errors_abort worldNoPath argsPlain
    (Or.inr ⟨["x\n"], rfl, Or.inl (by decide)⟩)).2 ""⟩

/-- C9 counterexample: the claim says that when no commit identifier can
be obtained the run still completes successfully with the header line
omitted.  In the source `main` calls `git.Repo(...).head.object.hexsha`
unconditionally, so a report outside any repository aborts the run (before
the report is even read), despite the report itself being well formed. -/
theorem no_repo_aborts_run :
    main worldNoRepo argsPlain = Except.error RunError.invalidGitRepository :=
  rfl

/-- C9 amended: the renderer omits the commit-hash header line whenever no
hash is supplied to `write_markdown`, but `main` itself does not tolerate
a failed repository lookup: it aborts with `InvalidGitRepositoryError`
and writes nothing. -/
theorem no_githash_header_omitted :
    (∀ (w : World) (args : Args), w.repoHash = none →
      main w args = Except.error RunError.invalidGitRepository) ∧
    (∀ a : Option String,
      mkHeader a none =
        if strTruthy a then
          "Using artifact `" ++ a.getD "" ++ "`\n" ++ "\n"
        else "") := by
  constructor
  · intro w args h
    simp [main, h]
  · intro a
    have hn : strTruthy (none : Option String) = false := rfl
    by_cases h : strTruthy a = true <;> simp [mkHeader, h, hn]

/-- Witness for C9's amended statement at concrete inputs. -/
theorem no_githash_header_omitted_witness :
    main worldNoRepo argsPlain = Except.error RunError.invalidGitRepository ∧
    mkHeader (some "ep1.mkv") none =
      (if strTruthy (some "ep1.mkv") then
        "Using artifact `" ++ (some "ep1.mkv").getD "" ++ "`\n" ++ "\n"
      else "") :=
  ⟨no_githash_header_omitted.1 worldNoRepo argsPlain rfl,
   no_githash_header_omitted.2 (some "ep1.mkv")⟩

end Qc2md
